import Mathlib

/-!
Verification development for the AI_Assistant backend
(document_analyzer.py, guardrails.py, main.py).

Strings are modelled as lists of characters; Python functions over
strings become Lean functions over lists.  The regular expressions,
date-format parsing and dictionary operations used by the source are
embedded with their Python semantics (ASCII character classes).
-/

namespace AIAssistant

/-- Python whitespace class (ASCII part of the re module's whitespace and
of str.strip's default set). -/
def isPySpace (c : Char) : Bool :=
  c = ' ' || c = '\t' || c = '\n' || c = '\r' || c = '\x0b' || c = '\x0c'

/-- ASCII lower-casing, as applied by re.IGNORECASE on ASCII input. -/
def toLow (c : Char) : Char :=
  if 'A' ≤ c && c ≤ 'Z' then Char.ofNat (c.toNat + 32) else c

/-- ASCII decimal digit. -/
def isDigitC (c : Char) : Bool := '0' ≤ c && c ≤ '9'

/-- ASCII word character, the re module's word class on ASCII input. -/
def isWordC (c : Char) : Bool := c.isAlpha || isDigitC c || c = '_'

/-- Left-trim of Python str.strip. -/
def trimLeft (l : List Char) : List Char := l.dropWhile isPySpace

/-- Python str.strip: drop leading and trailing whitespace. -/
def trim (l : List Char) : List Char :=
  ((trimLeft l).reverse.dropWhile isPySpace).reverse

/-- Case-insensitive prefix test (both sides ASCII-lowered). -/
def isPrefixOfCI (pat s : List Char) : Bool :=
  (pat.map toLow).isPrefixOf (s.map toLow)

/-- Case-sensitive substring occurrence, the Python in operator on str. -/
def occursSub (pat : List Char) : List Char → Bool
  | [] => pat.isEmpty
  | s@(_ :: rest) => pat.isPrefixOf s || occursSub pat rest

/-- Case-insensitive substring occurrence. -/
def occursSubCI (pat : List Char) : List Char → Bool
  | [] => pat.isEmpty
  | s@(_ :: rest) => isPrefixOfCI pat s || occursSubCI pat rest

/-- Suffix of the text that follows the leftmost case-insensitive
occurrence of the pattern, if the pattern occurs at all. -/
def findCIAfter (pat : List Char) : List Char → Option (List Char)
  | [] => if pat.isEmpty then some [] else none
  | s@(_ :: rest) =>
    if isPrefixOfCI pat s then some (s.drop pat.length)
    else findCIAfter pat rest

/-- Python str.replace with all occurrences replaced, by fuel on the
scanned string (each step consumes at least one character). -/
def replaceAllGo (pat rep : List Char) : Nat → List Char → List Char
  | _, [] => []
  | 0, s => s
  | fuel + 1, s@(c :: rest) =>
    if pat ≠ [] && pat.isPrefixOf s then
      rep ++ replaceAllGo pat rep fuel (s.drop pat.length)
    else
      c :: replaceAllGo pat rep fuel rest

/-- Python str.replace(old, new).  An empty pattern inserts the
replacement before every character and at the end, as Python does. -/
def replaceAll (s pat rep : List Char) : List Char :=
  if pat = [] then rep ++ (s.map (fun c => [c] ++ rep)).flatten
  else replaceAllGo pat rep s.length s

/-- Dictionaries of the Python source, modelled as association lists of
character-list keys and values; lookup returns the first binding. -/
abbrev PyDict := List (List Char × List Char)

/-- Python dict access d.get(k) / d[k]. -/
def dictLookup (k : List Char) (d : PyDict) : Option (List Char) :=
  (d.find? (fun p => p.1 == k)).map Prod.snd

/-- Python dict access d.get(k, default). -/
def dictGetD (d : PyDict) (k dflt : List Char) : List Char :=
  (dictLookup k d).getD dflt

/-- Python dict assignment d[k] = v: replace the binding in place if
the key is present, otherwise append it. -/
def dictSet (d : PyDict) (k v : List Char) : PyDict :=
  if d.any (fun p => p.1 == k) then
    d.map (fun p => if p.1 == k then (k, v) else p)
  else d ++ [(k, v)]

/-- Python dict.update(m): assign every binding of m in order. -/
def dictUpdate (d m : PyDict) : PyDict :=
  m.foldl (fun acc p => dictSet acc p.1 p.2) d

/-!
Structured response parser (document_analyzer.extract_structured_data).

Each field uses the pattern LABEL:\s*(.*?)(?:\n|$) under
re.IGNORECASE | re.DOTALL.  Whenever the label occurs, the match
succeeds: the greedy whitespace run after the label is consumed in
full (it may cross line breaks, since the whitespace class contains
the newline), and the lazy group then captures up to the next line
break or the end of the string, so the group never contains a newline.
-/

/-- Captured and stripped value for one labelled field; the empty
string when the label does not occur. -/
def extractField (label s : List Char) : List Char :=
  match findCIAfter label s with
  | none => []
  | some rest => trim ((rest.dropWhile isPySpace).takeWhile (fun c => c ≠ '\n'))

/-- The nine field keys and their labels, in the order of the source's
patterns table. -/
def fieldPatterns : List (List Char × List Char) :=
  [("title".data, "TITLE:".data),
   ("created_date".data, "CREATED_DATE:".data),
   ("updated_date".data, "UPDATED_DATE:".data),
   ("expiration_date".data, "EXPIRATION_DATE:".data),
   ("version".data, "VERSION:".data),
   ("key_topics".data, "KEY_TOPICS:".data),
   ("main_sections".data, "MAIN_SECTIONS:".data),
   ("outdated_elements".data, "OUTDATED_ELEMENTS:".data),
   ("policy_summary".data, "POLICY_SUMMARY:".data)]

/-- document_analyzer.extract_structured_data: one binding per field,
every key always present. -/
def extract_structured_data (s : List Char) : PyDict :=
  fieldPatterns.map (fun p => (p.1, extractField p.2 s))

/-- Capture rule as the specification words it: the value of a field is
everything from the label up to the first line break after the label
(or the end of the string), trimmed of surrounding whitespace. -/
def extractFieldSpec (label s : List Char) : List Char :=
  match findCIAfter label s with
  | none => []
  | some rest => trim (rest.takeWhile (fun c => c ≠ '\n'))

/-!
Date normalizer (document_analyzer.parse_date).

datetime.strptime is embedded per format: the field regexes of the
CPython _strptime module (a four-digit year, a one- or two-digit
month, a one- or two-digit or space-padded single-digit day with the
documented alternation order, case-insensitive full month names,
format whitespace matching a nonempty whitespace run),
a full-string match requirement, and the calendar validity check of
the datetime constructor.  An invalid calendar combination raises
ValueError in Python and falls through to the next format, exactly as
a failed regex match does.
-/

/-- Calendar date as produced by datetime.date. -/
structure PyDate where
  year : Nat
  month : Nat
  day : Nat
deriving DecidableEq, Repr

/-- Strict comparison of datetime.date values (lexicographic). -/
def dateLtb (a b : PyDate) : Bool :=
  a.year < b.year ||
    (a.year = b.year &&
      (a.month < b.month || (a.month = b.month && a.day < b.day)))

/-- Gregorian leap year, as datetime uses. -/
def isLeap (y : Nat) : Bool := y % 4 = 0 && (y % 100 ≠ 0 || y % 400 = 0)

/-- Days in a month of the proleptic Gregorian calendar. -/
def daysInMonth (y m : Nat) : Nat :=
  if m = 2 then (if isLeap y then 29 else 28)
  else if m = 4 || m = 6 || m = 9 || m = 11 then 30
  else 31

/-- datetime.date construction: validity check of year, month and day;
out-of-range values raise ValueError, modelled as none. -/
def mkDate (y m d : Nat) : Option PyDate :=
  if 1 ≤ y && y ≤ 9999 && 1 ≤ m && m ≤ 12 && 1 ≤ d && d ≤ daysInMonth y m then
    some ⟨y, m, d⟩
  else none

/-- Numeric value of an ASCII digit. -/
def digitVal (c : Char) : Nat := c.toNat - 48

/-- Exactly four digits, the %Y field. -/
def yearTok : List Char → List (Nat × List Char)
  | a :: b :: c :: d :: rest =>
    if isDigitC a && isDigitC b && isDigitC c && isDigitC d then
      [(((digitVal a * 10 + digitVal b) * 10 + digitVal c) * 10 + digitVal d, rest)]
    else []
  | _ => []

/-- The %m field, alternation order of _strptime: a two-digit 10-12,
then a zero-padded 01-09, then a single digit 1-9. -/
def monthTok : List Char → List (Nat × List Char)
  | '1' :: c :: rest =>
    (if '0' ≤ c && c ≤ '2' then [(10 + digitVal c, rest)] else []) ++ [(1, c :: rest)]
  | '0' :: c :: rest =>
    if '1' ≤ c && c ≤ '9' then [(digitVal c, rest)] else []
  | c :: rest =>
    if '1' ≤ c && c ≤ '9' then [(digitVal c, rest)] else []
  | [] => []

/-- The %d field, alternation order of _strptime: 30-31, then a
two-digit 10-29, then a zero-padded 01-09, then a single digit 1-9,
then a space-padded single digit (a blank followed by 1-9); the
alternatives start with distinct characters, so the listing order
below preserves the regex's preference order. -/
def dayTok : List Char → List (Nat × List Char)
  | '3' :: c :: rest =>
    (if c = '0' || c = '1' then [(30 + digitVal c, rest)] else []) ++ [(3, c :: rest)]
  | '1' :: c :: rest =>
    (if isDigitC c then [(10 + digitVal c, rest)] else []) ++ [(1, c :: rest)]
  | '2' :: c :: rest =>
    (if isDigitC c then [(20 + digitVal c, rest)] else []) ++ [(2, c :: rest)]
  | '0' :: c :: rest =>
    if '1' ≤ c && c ≤ '9' then [(digitVal c, rest)] else []
  | ' ' :: c :: rest =>
    if '1' ≤ c && c ≤ '9' then [(digitVal c, rest)] else []
  | c :: rest =>
    if '1' ≤ c && c ≤ '9' then [(digitVal c, rest)] else []
  | [] => []

/-- A literal character of the format. -/
def litTok (x : Char) : List Char → List (Unit × List Char)
  | c :: rest => if c = x then [((), rest)] else []
  | [] => []

/-- Whitespace in the format string matches a nonempty whitespace run
(the _strptime module rewrites it to one-or-more-whitespace); consumed
greedily, and no following field of the used formats matches
whitespace, so no backtracking into the run is ever needed. -/
def wsTok : List Char → List (Unit × List Char)
  | c :: rest =>
    if isPySpace c then [((), rest.dropWhile isPySpace)] else []
  | [] => []

/-- English month names with their numbers for the %B field. -/
def monthNames : List (List Char × Nat) :=
  [("january".data, 1), ("february".data, 2), ("march".data, 3),
   ("april".data, 4), ("may".data, 5), ("june".data, 6),
   ("july".data, 7), ("august".data, 8), ("september".data, 9),
   ("october".data, 10), ("november".data, 11), ("december".data, 12)]

/-- The %B field: a case-insensitive full month name (no name is a
prefix of another, so at most one matches). -/
def monthNameTok (s : List Char) : List (Nat × List Char) :=
  monthNames.foldr
    (fun nm acc =>
      if isPrefixOfCI nm.1 s then (nm.2, s.drop nm.1.length) :: acc else acc)
    []

/-- First full-string regex match in backtracking order, then the
datetime constructor; no second regex match is tried when the calendar
check fails, matching strptime's single-match behaviour. -/
def firstFull (cands : List ((Nat × Nat × Nat) × List Char)) : Option PyDate :=
  match (cands.filter (fun c => c.2.isEmpty)).head? with
  | some ((y, m, d), _) => mkDate y m d
  | none => none

/-- Format %Y-%m-%d and %Y/%m/%d with the given separator. -/
def fmtYmd (sep : Char) (s : List Char) : Option PyDate :=
  firstFull <|
    (yearTok s).flatMap fun (y, r1) =>
    (litTok sep r1).flatMap fun (_, r2) =>
    (monthTok r2).flatMap fun (m, r3) =>
    (litTok sep r3).flatMap fun (_, r4) =>
    (dayTok r4).map fun (d, r5) => ((y, m, d), r5)

/-- Format %m/%d/%Y. -/
def fmtMdy (s : List Char) : Option PyDate :=
  firstFull <|
    (monthTok s).flatMap fun (m, r1) =>
    (litTok '/' r1).flatMap fun (_, r2) =>
    (dayTok r2).flatMap fun (d, r3) =>
    (litTok '/' r3).flatMap fun (_, r4) =>
    (yearTok r4).map fun (y, r5) => ((y, m, d), r5)

/-- Format %d/%m/%Y. -/
def fmtDmy (s : List Char) : Option PyDate :=
  firstFull <|
    (dayTok s).flatMap fun (d, r1) =>
    (litTok '/' r1).flatMap fun (_, r2) =>
    (monthTok r2).flatMap fun (m, r3) =>
    (litTok '/' r3).flatMap fun (_, r4) =>
    (yearTok r4).map fun (y, r5) => ((y, m, d), r5)

/-- Format %B %d, %Y. -/
def fmtBdY (s : List Char) : Option PyDate :=
  firstFull <|
    (monthNameTok s).flatMap fun (m, r1) =>
    (wsTok r1).flatMap fun (_, r2) =>
    (dayTok r2).flatMap fun (d, r3) =>
    (litTok ',' r3).flatMap fun (_, r4) =>
    (wsTok r4).flatMap fun (_, r5) =>
    (yearTok r5).map fun (y, r6) => ((y, m, d), r6)

/-- Format %d %B %Y. -/
def fmtDBY (s : List Char) : Option PyDate :=
  firstFull <|
    (dayTok s).flatMap fun (d, r1) =>
    (wsTok r1).flatMap fun (_, r2) =>
    (monthNameTok r2).flatMap fun (m, r3) =>
    (wsTok r3).flatMap fun (_, r4) =>
    (yearTok r4).map fun (y, r5) => ((y, m, d), r5)

/-- The source's ordered format table. -/
def dateFormats : List (List Char → Option PyDate) :=
  [fmtYmd '-', fmtMdy, fmtDmy, fmtBdY, fmtDBY, fmtYmd '/']

/-- document_analyzer.parse_date on a string argument: placeholder
guard, then the first format that parses; none with a logged warning
when every format fails. -/
def parse_date (s : List Char) : Option PyDate :=
  if s = [] || trim s = [] || s = "None".data || s = "N/A".data then none
  else dateFormats.foldl (fun acc f => acc <|> f s) none

/-- document_analyzer.parse_date including the absent-input case: a
None argument fails the truthiness test and yields None. -/
def parse_date_opt : Option (List Char) → Option PyDate
  | none => none
  | some s => parse_date s

/-!
Guardrail engine (guardrails.Guardrails).

The six banned patterns are sequences of word boundaries, literals and
greedy character-class repetitions; they are embedded as token lists
and run by a backtracking matcher with the re module's semantics:
leftmost match, greedy repetition trying longer counts first, and a
word boundary holding where exactly one neighbour is a word character.
None of the six patterns can match the empty string.
-/

/-- One token of a banned pattern. -/
inductive RTok where
  | wb : RTok
  | lith : List Char → RTok
  | cls : (Char → Bool) → Nat → Option Nat → RTok

/-- Character equality, optionally ASCII-case-insensitive. -/
def eqC (ci : Bool) (a b : Char) : Bool :=
  if ci then toLow a = toLow b else a = b

/-- Prefix test under the given character equality. -/
def litPre (ci : Bool) : List Char → List Char → Bool
  | [], _ => true
  | _ :: _, [] => false
  | a :: as, b :: bs => eqC ci a b && litPre ci as bs

/-- Word-boundary test between the previous character and the rest of
the text. -/
def boundaryOk (prev : Option Char) (s : List Char) : Bool :=
  let l := match prev with | some c => isWordC c | none => false
  let r := match s with | c :: _ => isWordC c | [] => false
  l != r

/-- Last character of a consumed chunk, falling back to the previous
context character when nothing was consumed. -/
def newPrev (prev : Option Char) (consumed : List Char) : Option Char :=
  match consumed.getLast? with
  | some c => some c
  | none => prev

/-- Greedy count search: try the repetition count n, then n-1, and so
on down to lo. -/
def tryCounts (g : Nat → Option Nat) (lo : Nat) : Nat → Option Nat
  | 0 => g 0
  | n + 1 =>
    match g (n + 1) with
    | some r => some r
    | none => if n + 1 ≤ lo then none else tryCounts g lo n

/-- Backtracking matcher: length of text consumed by the token list at
the current position, if it matches there; fuel bounds the token-list
recursion and one unit more than the token count always suffices. -/
def matchToks (ci : Bool) : Nat → List RTok → Option Char → List Char → Option Nat
  | _, [], _, _ => some 0
  | 0, _ :: _, _, _ => none
  | fuel + 1, t :: ts, prev, s =>
    match t with
    | .wb => if boundaryOk prev s then matchToks ci fuel ts prev s else none
    | .lith l =>
      if litPre ci l s then
        match matchToks ci fuel ts (newPrev prev (s.take l.length)) (s.drop l.length) with
        | some n => some (l.length + n)
        | none => none
      else none
    | .cls p lo hi =>
      let run := (s.takeWhile p).length
      let ub := match hi with | some h => min h run | none => run
      if ub < lo then none
      else
        tryCounts
          (fun n =>
            if n ≤ run then
              match matchToks ci fuel ts (newPrev prev (s.take n)) (s.drop n) with
              | some k => some (n + k)
              | none => none
            else none)
          lo ub

/-- re.search as a boolean: does the pattern match at some position. -/
def searchPos (ci : Bool) (pat : List RTok) : Option Char → List Char → Bool
  | prev, [] => (matchToks ci (pat.length + 1) pat prev []).isSome
  | prev, s@(c :: rest) =>
    (matchToks ci (pat.length + 1) pat prev s).isSome || searchPos ci pat (some c) rest

/-- re.search(pattern, text, flags) as a boolean. -/
def research (ci : Bool) (pat : List RTok) (s : List Char) : Bool :=
  searchPos ci pat none s

/-- The redaction marker of audit_prompt. -/
def redactedMark : List Char := "[REDACTED]".data

/-- Scanner of re.sub: replace every leftmost non-overlapping match by
the redaction marker (the six patterns never match zero characters, so
every match advances); fuel bounds the scan and the text length always
suffices, since every step consumes at least one character. -/
def subAllGo (ci : Bool) (pat : List RTok) : Nat → Option Char → List Char → List Char
  | _, _, [] => []
  | 0, _, s => s
  | fuel + 1, prev, s@(c :: rest) =>
    match matchToks ci (pat.length + 1) pat prev s with
    | some (n + 1) =>
      redactedMark ++ subAllGo ci pat fuel (newPrev prev (s.take (n + 1))) (s.drop (n + 1))
    | _ => c :: subAllGo ci pat fuel (some c) rest

/-- re.sub(pattern, marker, text): audit_prompt calls it with no flags
argument, so the substitution matches case-sensitively even though the
search above was case-insensitive. -/
def subAll (pat : List RTok) (s : List Char) : List Char :=
  subAllGo false pat s.length none s

/-- Local-part class of the email pattern. -/
def emailLocalC (c : Char) : Bool :=
  c.isAlpha || isDigitC c || c = '.' || c = '_' || c = '%' || c = '+' || c = '-'

/-- Domain class of the email pattern. -/
def emailDomC (c : Char) : Bool := c.isAlpha || isDigitC c || c = '.' || c = '-'

/-- Final class of the email pattern; the source's class [A-Z|a-z]
contains the bar character. -/
def emailTldC (c : Char) : Bool := c.isAlpha || c = '|'

/-- Pattern for a Social Security Number. -/
def ssnPat : List RTok :=
  [.wb, .cls isDigitC 3 (some 3), .lith ['-'], .cls isDigitC 2 (some 2),
   .lith ['-'], .cls isDigitC 4 (some 4), .wb]

/-- Pattern for an email address. -/
def emailPat : List RTok :=
  [.wb, .cls emailLocalC 1 none, .lith ['@'], .cls emailDomC 1 none,
   .lith ['.'], .cls emailTldC 2 none, .wb]

/-- The banned-pattern table of Guardrails.__init__, in insertion
order. -/
def bannedPatterns : List (List Char × List (List RTok)) :=
  [("pii".data, [ssnPat, emailPat]),
   ("toxic_language".data, [[.lith "hate speech".data], [.lith "discriminatory".data]]),
   ("prompt_injection".data, [[.lith "ignore previous instructions".data],
                              [.lith "system prompt".data]])]

/-- Audit record of audit_prompt (the wall-clock timestamp field is a
real-time effect and is not modelled). -/
structure AuditResult where
  is_flagged : Bool
  flagged_categories : List (List Char)
  sanitized_text : List Char
deriving DecidableEq, Repr

/-- One pattern step of the audit loop: a case-insensitive search
against the original text and, on a hit, a flag, a category append and
a case-sensitive substitution on the running sanitized text. -/
def auditStep (text : List Char) (cat : List Char) (acc : AuditResult) (p : List RTok) :
    AuditResult :=
  if research true p text then
    { is_flagged := true
      flagged_categories := acc.flagged_categories ++ [cat]
      sanitized_text := subAll p acc.sanitized_text }
  else acc

/-- Guardrails.audit_prompt. -/
def audit_prompt (text : List Char) : Bool × AuditResult :=
  let r := bannedPatterns.foldl
    (fun acc cp => cp.2.foldl (auditStep text cp.1) acc)
    ⟨false, [], text⟩
  (r.is_flagged, r)

/-- The disclaimer list of Guardrails.audit_response. -/
def disclaimers : List (List Char) :=
  ["as an AI language model".data,
   "I cannot answer that".data,
   "I don".data ++ [Char.ofNat 39] ++ "t have personal opinions".data]

/-- Guardrails.audit_response: remove each disclaimer phrase in order,
then strip surrounding whitespace. -/
def audit_response (text : List Char) : List Char :=
  trim (disclaimers.foldl (fun t p => replaceAll t p []) text)

/-- The fallback-response table of Guardrails.__init__; note its keys
toxic and injection against the category names toxic_language and
prompt_injection emitted by audit_prompt. -/
def fallbackResponses : PyDict :=
  [("pii".data, "I cannot process requests containing personal identifiable information".data),
   ("toxic".data, "I aim to maintain respectful conversations".data),
   ("injection".data, "I can".data ++ [Char.ofNat 39] ++ "t comply with instruction-override requests".data)]

/-- The generic refusal of Guardrails.get_fallback_response. -/
def genericRefusal : List Char :=
  "I".data ++ [Char.ofNat 39] ++ "m unable to provide a response to that query".data

/-- Guardrails.get_fallback_response. -/
def get_fallback_response (category : List Char) : List Char :=
  (dictLookup category fallbackResponses).getD genericRefusal

/-- Blocked-query branch of the query endpoint (main.query_documents):
when the audit flags the question, the answer is the fallback response
of the first flagged category (nonempty whenever the flag is set). -/
def blockedAnswer (question : List Char) : Option (List Char) :=
  let fr := audit_prompt question
  if fr.1 then some (get_fallback_response (fr.2.flagged_categories.headD [])) else none

/-!
Batch extraction pipeline (document_analyzer.DocumentBatchProcessor).

The completion-service call (LLMChain.apply over the per-document
prompts) is the one external collaborator; it is passed in as a
function from the truncated document contents to either an error or
one raw response text per document.  Wall-clock readings of time.time
become explicit rational arguments.
-/

/-- Number of documents per batch (BATCH_SIZE). -/
def BATCH_SIZE : Nat := 4

/-- Maximum seconds before a partial batch is processed
(BATCH_TIMEOUT). -/
def BATCH_TIMEOUT : ℚ := 1 / 2

/-- Mutable state of a DocumentBatchProcessor. -/
structure BatchState where
  current_batch : List (List Char × PyDict)
  last_batch_time : ℚ
deriving Repr

/-- DocumentBatchProcessor.process_batch.  An empty batch returns an
empty result and leaves the state untouched (the early return precedes
the try block).  Otherwise the completion service is called on the
contents truncated to 8000 characters; the finally clause clears the
batch and resets the flush timer on success and on failure alike, and
a failure is re-raised to the caller. -/
def process_batch {E : Type} (llm : List (List Char) → Except E (List (List Char)))
    (st : BatchState) (now : ℚ) : Except E (List PyDict) × BatchState :=
  if st.current_batch.isEmpty then (Except.ok [], st)
  else
    match llm ((st.current_batch.map Prod.fst).map (List.take 8000)) with
    | Except.error e => (Except.error e, ⟨[], now⟩)
    | Except.ok responses =>
      (Except.ok ((responses.zip (st.current_batch.map Prod.snd)).map
        (fun rm => dictUpdate (extract_structured_data rm.1) rm.2)), ⟨[], now⟩)

/-- DocumentBatchProcessor.add_document: append the document, then
flush immediately when the batch is full or the timeout has elapsed
since the last flush; otherwise return Python None. -/
def add_document {E : Type} (llm : List (List Char) → Except E (List (List Char)))
    (st : BatchState) (now : ℚ) (content : List Char) (metadata : PyDict) :
    Option (Except E (List PyDict)) × BatchState :=
  if BATCH_SIZE ≤ (st.current_batch ++ [(content, metadata)]).length ∨
      BATCH_TIMEOUT ≤ now - st.last_batch_time then
    let rs := process_batch llm ⟨st.current_batch ++ [(content, metadata)], st.last_batch_time⟩ now
    (some rs.1, rs.2)
  else (none, ⟨st.current_batch ++ [(content, metadata)], st.last_batch_time⟩)

/-- Records of a flush as the ingestion loop consumes them: the ok
payload of process_batch, or no records when the flush failed. -/
def flushRecords {E : Type} (llm : List (List Char) → Except E (List (List Char)))
    (st : BatchState) (now : ℚ) : List PyDict :=
  match (process_batch llm st now).1 with
  | Except.ok rs => rs
  | Except.error _ => []

/-!
Compliance report builder: the per-record portion of
document_analyzer.analyze_documents_from_blob that derives the status
column and the findings rows from one extraction record, the list of
file names sharing its content hash, and the report date.
-/

/-- One findings row of the report (issue type, description, suggested
action, priority). -/
structure Finding where
  issue : List Char
  description : List Char
  action : List Char
  priority : List Char
deriving DecidableEq, Repr

/-- os.path.basename on a POSIX path. -/
def basename (s : List Char) : List Char :=
  (s.reverse.takeWhile (fun c => c ≠ '/')).reverse

/-- Python str.join with a comma-space separator. -/
def joinComma (xs : List (List Char)) : List Char :=
  List.intercalate ", ".data xs

/-- The expiration test of the report loop: the parsed expiration date
exists and is earlier than today. -/
def expiredCheck (doc : PyDict) (today : PyDate) : Bool :=
  match parse_date (dictGetD doc "expiration_date".data []) with
  | some dt => dateLtb dt today
  | none => false

/-- Status column of the record's summary row. -/
def recordStatus (doc : PyDict) (today : PyDate) : List Char :=
  if expiredCheck doc today then "Expired".data else "Current".data

/-- Expired finding (issue type Outdated Policy, priority High) citing
the raw expiration string. -/
def expiredFindings (doc : PyDict) (today : PyDate) : List Finding :=
  if expiredCheck doc today then
    [⟨"Outdated Policy".data,
      "Policy has expired on ".data ++ dictGetD doc "expiration_date".data [],
      "Review and update policy with new expiration date".data,
      "High".data⟩]
  else []

/-- Outdated-content finding (priority Medium) carrying the raw
outdated_elements text, emitted when that text is nonempty after
stripping. -/
def outdatedFindings (doc : PyDict) : List Finding :=
  if trim (dictGetD doc "outdated_elements".data []) ≠ [] then
    [⟨"Outdated Content".data,
      dictGetD doc "outdated_elements".data [],
      "Update policy content to meet current standards".data,
      "Medium".data⟩]
  else []

/-- Redundant finding (priority Medium): emitted when more than one
file shares the record's content hash and at least one of them is not
the record itself, naming the others by base name.  The hashmates
argument is the fingerprint-index entry content_hashes[content_hash]. -/
def redundantFindings (doc : PyDict) (hashmates : List (List Char)) : List Finding :=
  if 1 < hashmates.length then
    let fname := dictGetD doc "filename".data []
    let dups := (hashmates.filter (fun f => f ≠ fname)).map basename
    if dups ≠ [] then
      [⟨"Redundant Policy".data,
        "This policy is identical or very similar to: ".data ++ joinComma dups,
        "Consider consolidating redundant policies".data,
        "Medium".data⟩]
    else []
  else []

/-- All findings rows the report loop appends for one record, in the
order of the source's three independent checks. -/
def recordFindings (doc : PyDict) (hashmates : List (List Char)) (today : PyDate) :
    List Finding :=
  expiredFindings doc today ++ outdatedFindings doc ++ redundantFindings doc hashmates

/-!
Helper lemmas about the string utilities.
-/

theorem dropWhile_head_false {p : Char → Bool} {l : List Char} {c : Char}
    (h : (l.dropWhile p).head? = some c) : p c = false := by
  induction l with
  | nil => simp [List.dropWhile] at h
  | cons a t ih =>
    rw [List.dropWhile_cons] at h
    by_cases hp : p a = true
    · rw [if_pos hp] at h
      exact ih h
    · rw [if_neg hp] at h
      simp only [List.head?_cons, Option.some.injEq] at h
      subst h
      exact Bool.eq_false_iff.mpr hp

theorem dropWhile_eq_self_of_head {p : Char → Bool} {l : List Char}
    (h : ∀ c, l.head? = some c → p c = false) : l.dropWhile p = l := by
  cases l with
  | nil => rfl
  | cons a t =>
    rw [List.dropWhile_cons, if_neg]
    simp [h a rfl]

theorem dropWhile_idem (p : Char → Bool) (l : List Char) :
    (l.dropWhile p).dropWhile p = l.dropWhile p := by
  apply dropWhile_eq_self_of_head
  intro c hc
  exact dropWhile_head_false hc

theorem trim_reverse_eq (l : List Char) :
    (trim l).reverse = (trimLeft l).reverse.dropWhile isPySpace := by
  show (((trimLeft l).reverse.dropWhile isPySpace).reverse).reverse = _
  rw [List.reverse_reverse]

theorem trim_head_false {l : List Char} {c : Char}
    (h : (trim l).head? = some c) : isPySpace c = false := by
  have hsuf : (trim l).reverse <:+ (trimLeft l).reverse := by
    rw [trim_reverse_eq]
    exact List.dropWhile_suffix isPySpace
  obtain ⟨t, ht⟩ := List.reverse_suffix.mp hsuf
  cases hcase : trim l with
  | nil =>
    rw [hcase] at h
    simp at h
  | cons a s =>
    rw [hcase] at h
    simp only [List.head?_cons, Option.some.injEq] at h
    have hhead : (trimLeft l).head? = some a := by
      rw [← ht, hcase]
      rfl
    have hfa := dropWhile_head_false (p := isPySpace) (l := l)
      (by simpa [trimLeft] using hhead)
    rwa [h] at hfa

theorem trim_trim (l : List Char) : trim (trim l) = trim l := by
  have h1 : trimLeft (trim l) = trim l :=
    dropWhile_eq_self_of_head fun c hc => trim_head_false hc
  show ((trimLeft (trim l)).reverse.dropWhile isPySpace).reverse = trim l
  rw [h1, trim_reverse_eq, dropWhile_idem, ← trim_reverse_eq, List.reverse_reverse]

theorem mem_trim {c : Char} {l : List Char} (h : c ∈ trim l) : c ∈ l := by
  have h1 : c ∈ (trimLeft l).reverse.dropWhile isPySpace := by
    simpa [trim] using h
  have h2 : c ∈ (trimLeft l).reverse := (List.dropWhile_sublist _).mem h1
  have h3 : c ∈ trimLeft l := by simpa using h2
  exact (List.dropWhile_sublist _).mem h3

theorem dropWhile_append_of_all {p : Char → Bool} {l₁ : List Char} (l₂ : List Char)
    (h : ∀ c ∈ l₁, p c = true) : (l₁ ++ l₂).dropWhile p = l₂.dropWhile p := by
  induction l₁ with
  | nil => rfl
  | cons a t ih =>
    rw [List.cons_append, List.dropWhile_cons, if_pos (by simp [h a])]
    exact ih fun c hc => h c (List.mem_cons_of_mem a hc)

theorem takeWhile_append_of_all {p : Char → Bool} {l₁ : List Char} (l₂ : List Char)
    (h : ∀ c ∈ l₁, p c = true) : (l₁ ++ l₂).takeWhile p = l₁ ++ l₂.takeWhile p := by
  induction l₁ with
  | nil => rfl
  | cons a t ih =>
    rw [List.cons_append, List.takeWhile_cons, if_pos (by simp [h a]), ih
      fun c hc => h c (List.mem_cons_of_mem a hc), List.cons_append]

theorem trim_append_of_all_space {l₁ : List Char} (l₂ : List Char)
    (h : ∀ c ∈ l₁, isPySpace c = true) : trim (l₁ ++ l₂) = trim l₂ := by
  show ((trimLeft (l₁ ++ l₂)).reverse.dropWhile isPySpace).reverse
      = ((trimLeft l₂).reverse.dropWhile isPySpace).reverse
  rw [show trimLeft (l₁ ++ l₂) = trimLeft l₂ from dropWhile_append_of_all l₂ h]

theorem occursSub_cons_false {pat : List Char} {c : Char} {rest : List Char}
    (h : occursSub pat (c :: rest) = false) :
    pat.isPrefixOf (c :: rest) = false ∧ occursSub pat rest = false := by
  rw [occursSub] at h
  exact ⟨by simpa using (Bool.or_eq_false_iff.mp h).1, (Bool.or_eq_false_iff.mp h).2⟩

theorem replaceAllGo_of_not_occurs {pat rep : List Char} :
    ∀ s : List Char, occursSub pat s = false → replaceAllGo pat rep s.length s = s := by
  intro s
  induction s with
  | nil => intro _; rfl
  | cons c rest ih =>
    intro h
    obtain ⟨h1, h2⟩ := occursSub_cons_false h
    rw [List.length_cons, replaceAllGo, if_neg (by simp [h1]), ih h2]

theorem replaceAll_of_not_occurs {pat rep : List Char} (s : List Char)
    (h : occursSub pat s = false) : replaceAll s pat rep = s := by
  have hne : pat ≠ [] := by
    intro he
    subst he
    cases s with
    | nil => simp [occursSub, List.isEmpty] at h
    | cons a t => simp [occursSub, List.isPrefixOf] at h
  rw [replaceAll, if_neg hne]
  exact replaceAllGo_of_not_occurs s h

theorem findCIAfter_eq_none {pat : List Char} :
    ∀ s : List Char, occursSubCI pat s = false → findCIAfter pat s = none := by
  intro s
  induction s with
  | nil =>
    intro h
    rw [occursSubCI] at h
    rw [findCIAfter, if_neg (by simp [h])]
  | cons c rest ih =>
    intro h
    rw [occursSubCI, Bool.or_eq_false_iff] at h
    rw [findCIAfter, if_neg (by simp [h.1]), ih h.2]

/-!
Helper lemmas about the dictionary model.
-/

theorem dictLookup_dictSet_same (d : PyDict) (k v : List Char) :
    dictLookup k (dictSet d k v) = some v := by
  rw [dictSet]
  by_cases hany : d.any (fun p => p.1 == k) = true
  · rw [if_pos hany]
    induction d with
    | nil => simp at hany
    | cons p t ih =>
      by_cases hp : p.1 == k
      · simp [dictLookup, List.find?, hp]
      · have hany' : t.any (fun p => p.1 == k) = true := by
          have hor : (p.1 == k) = true ∨ t.any (fun p => p.1 == k) = true := by
            simpa [List.any_cons, Bool.or_eq_true_iff] using hany
          rcases hor with h1 | h1
          · exact absurd h1 hp
          · exact h1
        have := ih hany'
        simpa [dictLookup, List.find?, hp] using this
  · rw [if_neg hany]
    have hnone : d.find? (fun p => p.1 == k) = none := by
      rw [List.find?_eq_none]
      intro x hx
      simp only [List.any_eq_true, not_exists, not_and] at hany
      exact fun hc => (Bool.eq_false_iff.mp (by simpa using hany x hx)) hc
    simp [dictLookup, List.find?_append, hnone, List.find?]

theorem dictLookup_dictSet_other (d : PyDict) {k k' : List Char} (v : List Char)
    (h : k' ≠ k) : dictLookup k (dictSet d k' v) = dictLookup k d := by
  have hbeq : (k' == k) = false := beq_eq_false_iff_ne.mpr h
  rw [dictSet]
  by_cases hany : d.any (fun p => p.1 == k') = true
  · rw [if_pos hany]
    clear hany
    induction d with
    | nil => rfl
    | cons p t ih =>
      by_cases hp : p.1 == k'
      · have hpk : (p.1 == k) = false := by
          have : p.1 = k' := by simpa using hp
          rw [this]
          exact hbeq
        simp [dictLookup, List.find?, hp, hbeq, hpk] at ih ⊢
        exact ih
      · by_cases hpk : p.1 == k
        · simp [dictLookup, List.find?, hp, hpk]
        · simp [dictLookup, List.find?, hp, hpk] at ih ⊢
          exact ih
  · rw [if_neg hany]
    simp [dictLookup, List.find?_append, List.find?, hbeq]

theorem dictLookup_dictUpdate_not_mem {m : PyDict} {k : List Char} :
    ∀ d : PyDict, (∀ p ∈ m, p.1 ≠ k) → dictLookup k (dictUpdate d m) = dictLookup k d := by
  induction m with
  | nil => intro d _; rfl
  | cons q t ih =>
    intro d h
    show dictLookup k (dictUpdate (dictSet d q.1 q.2) t) = _
    rw [ih (dictSet d q.1 q.2) fun p hp => h p (List.mem_cons_of_mem q hp),
      dictLookup_dictSet_other d q.2 (h q (List.mem_cons_self q t))]

theorem dictUpdate_lookup_right {m : PyDict} {k v : List Char} :
    ∀ d : PyDict, (m.map Prod.fst).Nodup → dictLookup k m = some v →
      dictLookup k (dictUpdate d m) = some v := by
  induction m with
  | nil => intro d _ hm; simp [dictLookup, List.find?] at hm
  | cons q t ih =>
    intro d hnd hm
    rw [List.map_cons, List.nodup_cons] at hnd
    show dictLookup k (dictUpdate (dictSet d q.1 q.2) t) = some v
    by_cases hq : q.1 == k
    · have hqk : q.1 = k := by simpa using hq
      have hv : q.2 = v := by
        simpa [dictLookup, List.find?, hq] using hm
      have hnot : ∀ p ∈ t, p.1 ≠ k := by
        intro p hp hk
        exact hnd.1 (hqk ▸ hk ▸ List.mem_map_of_mem Prod.fst hp)
      rw [dictLookup_dictUpdate_not_mem (dictSet d q.1 q.2) hnot, hqk,
        dictLookup_dictSet_same d k q.2, hv]
    · have hm' : dictLookup k t = some v := by
        simpa [dictLookup, List.find?, hq] using hm
      exact ih (dictSet d q.1 q.2) hnd.2 hm'

/-!
Helper lemmas about the audit fold.
-/

/-- The six category-pattern pairs of the audit loop, in visit
order. -/
def bannedPairs : List (List Char × List RTok) :=
  bannedPatterns.flatMap (fun cp => cp.2.map (fun p => (cp.1, p)))

theorem auditPairs_foldl (text : List Char) (P : List (List Char × List RTok)) :
    ∀ acc : AuditResult,
      P.foldl (fun a pr => auditStep text pr.1 a pr.2) acc =
        ⟨acc.is_flagged || P.any (fun pr => research true pr.2 text),
         acc.flagged_categories ++
           (P.filter (fun pr => research true pr.2 text)).map Prod.fst,
         (P.filter (fun pr => research true pr.2 text)).foldl
           (fun s pr => subAll pr.2 s) acc.sanitized_text⟩ := by
  induction P with
  | nil => intro acc; simp
  | cons pr t ih =>
    intro acc
    rw [List.foldl_cons]
    by_cases hr : research true pr.2 text = true
    · have hstep : auditStep text pr.1 acc pr.2 =
          ⟨true, acc.flagged_categories ++ [pr.1], subAll pr.2 acc.sanitized_text⟩ := by
        rw [auditStep, if_pos hr]
      rw [hstep, ih]
      simp [List.any_cons, List.filter_cons, hr]
    · have hstep : auditStep text pr.1 acc pr.2 = acc := by
        rw [auditStep, if_neg hr]
      rw [hstep, ih]
      simp [List.any_cons, List.filter_cons, hr]

theorem audit_prompt_eq (text : List Char) :
    audit_prompt text =
      (bannedPairs.any (fun pr => research true pr.2 text),
       ⟨bannedPairs.any (fun pr => research true pr.2 text),
        (bannedPairs.filter (fun pr => research true pr.2 text)).map Prod.fst,
        (bannedPairs.filter (fun pr => research true pr.2 text)).foldl
          (fun s pr => subAll pr.2 s) text⟩) := by
  have hfold : audit_prompt text =
      (let r := bannedPairs.foldl (fun a pr => auditStep text pr.1 a pr.2) ⟨false, [], text⟩
       (r.is_flagged, r)) := rfl
  rw [hfold, auditPairs_foldl text bannedPairs ⟨false, [], text⟩]
  simp

theorem audit_flagged_categories_ne_nil {q : List Char}
    (h : (audit_prompt q).1 = true) : (audit_prompt q).2.flagged_categories ≠ [] := by
  rw [audit_prompt_eq] at h ⊢
  simp only [List.any_eq_true] at h
  obtain ⟨pr, hmem, hres⟩ := h
  simp only [ne_eq, List.map_eq_nil_iff, List.filter_eq_nil_iff, not_forall]
  exact ⟨pr, hmem, by simp [hres]⟩

/-!
Claim theorems.
-/

theorem extractField_of_not_occurs {label s : List Char}
    (h : occursSubCI label s = false) : extractField label s = [] := by
  unfold extractField
  rw [findCIAfter_eq_none s h]

theorem dictLookup_extract {key label : List Char} (s : List Char)
    (hin : (key, label) ∈ fieldPatterns) :
    dictLookup key (extract_structured_data s) = some (extractField label s) := by
  simp only [fieldPatterns, List.mem_cons, List.not_mem_nil, or_false] at hin
  rcases hin with h|h|h|h|h|h|h|h|h <;>
    (obtain ⟨hk, hl⟩ := Prod.ext_iff.mp h
     subst hk
     subst hl
     rfl)

/-- C3: for every input string s, including one containing all nine
labels, extract_structured_data returns a mapping with exactly the
nine keys title, created_date, updated_date, expiration_date, version,
key_topics, main_sections, outdated_elements and policy_summary, in
that order, each bound to a string; it is a total function (hence
never raises), a field whose label does not occur in the input is
bound to the empty string (t with its absent label), on the empty
input every field is empty, and on a sample carrying all nine labels
every field holds its labelled value. -/
theorem c3_parser_totality (s t key label : List Char)
    (hin : (key, label) ∈ fieldPatterns)
    (habs : occursSubCI label t = false) :
    (extract_structured_data s).map Prod.fst =
      ["title".data, "created_date".data, "updated_date".data, "expiration_date".data,
       "version".data, "key_topics".data, "main_sections".data, "outdated_elements".data,
       "policy_summary".data]
    ∧ dictLookup key (extract_structured_data t) = some []
    ∧ extract_structured_data [] =
      [("title".data, []), ("created_date".data, []), ("updated_date".data, []),
       ("expiration_date".data, []), ("version".data, []), ("key_topics".data, []),
       ("main_sections".data, []), ("outdated_elements".data, []),
       ("policy_summary".data, [])]
    ∧ extract_structured_data
        ("TITLE: T\nCREATED_DATE: 2020-01-01\nUPDATED_DATE: 2021-02-02\n".data ++
         "EXPIRATION_DATE: 2022-03-03\nVERSION: 1.0\nKEY_TOPICS: a, b\n".data ++
         "MAIN_SECTIONS: s1, s2\nOUTDATED_ELEMENTS: old refs\nPOLICY_SUMMARY: sum".data) =
      [("title".data, "T".data), ("created_date".data, "2020-01-01".data),
       ("updated_date".data, "2021-02-02".data),
       ("expiration_date".data, "2022-03-03".data), ("version".data, "1.0".data),
       ("key_topics".data, "a, b".data), ("main_sections".data, "s1, s2".data),
       ("outdated_elements".data, "old refs".data),
       ("policy_summary".data, "sum".data)] := by
  exact ⟨rfl, by rw [dictLookup_extract t hin, extractField_of_not_occurs habs],
    by decide, by decide⟩

/-- Witness for C3 at concrete inputs: an input carrying all nine
labels for the keys conclusion, and the title label with an input that
contains no label. -/
theorem c3_parser_totality_witness :
    (("title".data, "TITLE:".data) ∈ fieldPatterns
      ∧ occursSubCI "TITLE:".data "no labels here".data = false)
    ∧ (extract_structured_data
        ("TITLE: T\nCREATED_DATE: 2020-01-01\nUPDATED_DATE: 2021-02-02\n".data ++
         "EXPIRATION_DATE: 2022-03-03\nVERSION: 1.0\nKEY_TOPICS: a, b\n".data ++
         "MAIN_SECTIONS: s1, s2\nOUTDATED_ELEMENTS: old refs\nPOLICY_SUMMARY: sum".data)).map
        Prod.fst =
      ["title".data, "created_date".data, "updated_date".data, "expiration_date".data,
       "version".data, "key_topics".data, "main_sections".data, "outdated_elements".data,
       "policy_summary".data]
    ∧ dictLookup "title".data (extract_structured_data "no labels here".data) = some [] :=
  ⟨⟨by decide, by decide⟩,
   (c3_parser_totality
     ("TITLE: T\nCREATED_DATE: 2020-01-01\nUPDATED_DATE: 2021-02-02\n".data ++
      "EXPIRATION_DATE: 2022-03-03\nVERSION: 1.0\nKEY_TOPICS: a, b\n".data ++
      "MAIN_SECTIONS: s1, s2\nOUTDATED_ELEMENTS: old refs\nPOLICY_SUMMARY: sum".data)
     "no labels here".data "title".data "TITLE:".data (by decide) (by decide)).1,
   (c3_parser_totality "no labels here".data "no labels here".data "title".data
     "TITLE:".data (by decide) (by decide)).2.1⟩

/-- C8 counterexample: on the input TITLE:(newline)foo the capture
does not stop at the first line break after the label — the captured
title is foo, a value lying wholly past that break, while the
specified capture rule (everything between the label and the first
line break, trimmed) yields the empty string. -/
theorem c8_counterexample :
    dictLookup "title".data (extract_structured_data "TITLE:\nfoo".data) = some "foo".data
    ∧ extractFieldSpec "TITLE:".data "TITLE:\nfoo".data = []
    ∧ extractField "TITLE:".data "TITLE:\nfoo".data ≠
        extractFieldSpec "TITLE:".data "TITLE:\nfoo".data := by
  refine ⟨rfl, rfl, by decide⟩

/-- C8 as amended: for every input and label, the captured value is
obtained from the text after the label by first skipping its entire
leading whitespace run — which may itself cross line breaks, so that
after blank lines the value is taken from a later line — and then
capturing up to the next line break or the end of the string and
trimming; hence the value never contains a line break and is trimmed
of surrounding whitespace, and whenever that whitespace run contains
no line break the capture agrees with the specified
capture-up-to-first-line-break rule. -/
theorem c8_single_line_capture (label s : List Char) :
    extractField label s =
      trim ((((findCIAfter label s).getD []).dropWhile isPySpace).takeWhile
        (fun c => c ≠ '\n'))
    ∧ (extractField label s).all (fun c => c ≠ '\n') = true
    ∧ trim (extractField label s) = extractField label s
    ∧ ((((findCIAfter label s).getD []).takeWhile isPySpace).all
        (fun c => c ≠ '\n') = true →
       extractField label s = extractFieldSpec label s) := by
  cases hf : findCIAfter label s with
  | none =>
    have hv : extractField label s = [] := by rw [extractField, hf]
    have hv2 : extractFieldSpec label s = [] := by rw [extractFieldSpec, hf]
    rw [hv, hv2]
    exact ⟨rfl, rfl, rfl, fun _ => rfl⟩
  | some rest =>
    have hval : extractField label s =
        trim ((rest.dropWhile isPySpace).takeWhile (fun c => c ≠ '\n')) := by
      rw [extractField, hf]
    refine ⟨?_, ?_, ?_, ?_⟩
    · rw [hval]
      rfl
    · rw [hval]
      rw [List.all_eq_true]
      intro c hc
      exact List.mem_takeWhile_imp (p := fun c => decide (c ≠ '\n')) (mem_trim hc)
    · rw [hval, trim_trim]
    · intro hws
      have hq : ∀ c ∈ rest.takeWhile isPySpace, (fun c => decide (c ≠ '\n')) c = true := by
        simp only [Option.getD_some] at hws
        exact List.all_eq_true.mp hws
      have hsp : ∀ c ∈ rest.takeWhile isPySpace, isPySpace c = true :=
        fun c hc => List.mem_takeWhile_imp hc
      rw [hval, extractFieldSpec, hf]
      calc trim ((rest.dropWhile isPySpace).takeWhile (fun c => c ≠ '\n'))
          = trim (rest.takeWhile isPySpace ++
              (rest.dropWhile isPySpace).takeWhile (fun c => c ≠ '\n')) :=
            (trim_append_of_all_space _ hsp).symm
        _ = trim ((rest.takeWhile isPySpace ++ rest.dropWhile isPySpace).takeWhile
              (fun c => c ≠ '\n')) := by
            rw [takeWhile_append_of_all _ hq]
        _ = trim (rest.takeWhile (fun c => c ≠ '\n')) := by
            rw [List.takeWhile_append_dropWhile]

/-- Witness for C8: the full capture equation at a blank-line input
(the value is drawn from the line after the blank lines), and the
agreement conclusion at an input whose post-label whitespace is a
single blank. -/
theorem c8_single_line_capture_witness :
    extractField "TITLE:".data "TITLE: \n\nfoo\nbar".data =
      trim ((((findCIAfter "TITLE:".data "TITLE: \n\nfoo\nbar".data).getD
        []).dropWhile isPySpace).takeWhile (fun c => c ≠ '\n'))
    ∧ ((((findCIAfter "TITLE:".data "TITLE: abc\ndef".data).getD []).takeWhile
        isPySpace).all (fun c => c ≠ '\n') = true)
    ∧ extractField "TITLE:".data "TITLE: abc\ndef".data =
        extractFieldSpec "TITLE:".data "TITLE: abc\ndef".data :=
  ⟨(c8_single_line_capture "TITLE:".data "TITLE: \n\nfoo\nbar".data).1,
   by decide,
   (c8_single_line_capture "TITLE:".data "TITLE: abc\ndef".data).2.2.2 (by decide)⟩

/-- C4: parse_date maps the empty string, whitespace-only strings, the
literals None and N/A, and an absent argument to no date; each of the
six supported formats parses a correctly formatted string to the
expected calendar date, including strptime's space-padded single-digit
days; the formats are tried in the fixed order of the source's table
and the first success wins (03/04/2023 is read as the US format
March 4, not the EU format April 3); and an unparseable string yields
no date rather than an error. -/
theorem c4_date_normalizer :
    parse_date_opt none = none
    ∧ parse_date [] = none
    ∧ parse_date "   ".data = none
    ∧ parse_date "None".data = none
    ∧ parse_date "N/A".data = none
    ∧ parse_date "2023-05-17".data = some ⟨2023, 5, 17⟩
    ∧ parse_date "05/17/2023".data = some ⟨2023, 5, 17⟩
    ∧ parse_date "17/05/2023".data = some ⟨2023, 5, 17⟩
    ∧ parse_date "May 17, 2023".data = some ⟨2023, 5, 17⟩
    ∧ parse_date "17 May 2023".data = some ⟨2023, 5, 17⟩
    ∧ parse_date "2023/05/17".data = some ⟨2023, 5, 17⟩
    ∧ parse_date "03/04/2023".data = some ⟨2023, 3, 4⟩
    ∧ parse_date "2023-05- 7".data = some ⟨2023, 5, 7⟩
    ∧ parse_date " 7 May 2023".data = some ⟨2023, 5, 7⟩
    ∧ parse_date "05/ 7/2023".data = some ⟨2023, 5, 7⟩
    ∧ parse_date "banana".data = none := by
  decide

/-- C7 counterexample: audit_response is not idempotent on its own
output — removing the phrase (I cannot answer that) from the input
reassembles the earlier phrase (as an AI language model), which only
the second application removes. -/
theorem c7_counterexample :
    audit_response (audit_response
        "as an AI langI cannot answer thatuage model".data) ≠
      audit_response "as an AI langI cannot answer thatuage model".data := by
  decide

/-- C7 as amended: audit_response is total, raises no flag, and is
idempotent on every output that contains none of the disclaimer
phrases; unconditional idempotence fails because removing a later
phrase can reassemble an earlier one. -/
theorem c7_sanitize_idempotent_on_clean (t : List Char)
    (h : ∀ p ∈ disclaimers, occursSub p (audit_response t) = false) :
    audit_response (audit_response t) = audit_response t := by
  have h1 := h _ (show "as an AI language model".data ∈ disclaimers by
    simp [disclaimers])
  have h2 := h _ (show "I cannot answer that".data ∈ disclaimers by
    simp [disclaimers])
  have h3 := h _ (show ("I don".data ++ [Char.ofNat 39] ++
      "t have personal opinions".data) ∈ disclaimers by simp [disclaimers])
  have hfold : disclaimers.foldl (fun u p => replaceAll u p []) (audit_response t) =
      audit_response t := by
    simp only [disclaimers, List.foldl]
    rw [replaceAll_of_not_occurs _ h1, replaceAll_of_not_occurs _ h2,
      replaceAll_of_not_occurs _ h3]
  show trim (disclaimers.foldl (fun u p => replaceAll u p []) (audit_response t)) =
    audit_response t
  rw [hfold]
  exact trim_trim _

/-- Witness for C7 at a concrete clean input. -/
theorem c7_sanitize_idempotent_on_clean_witness :
    (∀ p ∈ disclaimers, occursSub p (audit_response "hello world".data) = false)
    ∧ audit_response (audit_response "hello world".data) =
        audit_response "hello world".data :=
  ⟨by decide, c7_sanitize_idempotent_on_clean "hello world".data (by decide)⟩

/-- C6 counterexample: the mixed-case input Hate Speech matches the
toxic-language pattern case-insensitively and is flagged with that
category, yet its sanitized text is unchanged and contains no
redaction marker, because the substitution is applied without the
ignore-case flag. -/
theorem c6_counterexample :
    (audit_prompt "Hate Speech".data).1 = true
    ∧ (audit_prompt "Hate Speech".data).2.flagged_categories = ["toxic_language".data]
    ∧ (audit_prompt "Hate Speech".data).2.sanitized_text = "Hate Speech".data
    ∧ occursSub redactedMark "Hate Speech".data = false := by
  decide

/-- C6 as amended: audit_prompt flags exactly when one of the six
patterns matches the original text case-insensitively; each such match
appends its category name, in the table's pattern order; the sanitized
text is obtained by applying, for each case-insensitive match in that
order, a case-sensitive substitution of the redaction marker (the
substitution is issued without the ignore-case flag); digit-only spans
such as a Social Security Number are unaffected by the case
discrepancy, so the SSN example is flagged as pii and redacted. -/
theorem c6_audit_prompt (t : List Char) :
    (audit_prompt t).1 = bannedPairs.any (fun pr => research true pr.2 t)
    ∧ (audit_prompt t).2.flagged_categories =
        (bannedPairs.filter (fun pr => research true pr.2 t)).map Prod.fst
    ∧ (audit_prompt t).2.sanitized_text =
        (bannedPairs.filter (fun pr => research true pr.2 t)).foldl
          (fun s pr => subAll pr.2 s) t
    ∧ audit_prompt "My SSN is 123-45-6789".data =
        (true, ⟨true, ["pii".data], "My SSN is [REDACTED]".data⟩) := by
  rw [audit_prompt_eq t]
  exact ⟨rfl, rfl, rfl, by decide⟩

/-- C10: when a question is flagged only in the toxic-language or
prompt-injection categories, the endpoint's blocked answer is the
generic refusal, because the fallback table is keyed by toxic and
injection while audit_prompt emits toxic_language and
prompt_injection; only the pii category receives its specific
response. -/
theorem c10_category_key_mismatch (q : List Char)
    (hf : (audit_prompt q).1 = true)
    (hcat : ∀ c ∈ (audit_prompt q).2.flagged_categories,
      c = "toxic_language".data ∨ c = "prompt_injection".data) :
    blockedAnswer q = some genericRefusal
    ∧ get_fallback_response "toxic_language".data = genericRefusal
    ∧ get_fallback_response "prompt_injection".data = genericRefusal
    ∧ get_fallback_response "pii".data =
        "I cannot process requests containing personal identifiable information".data := by
  refine ⟨?_, rfl, rfl, rfl⟩
  have hne := audit_flagged_categories_ne_nil hf
  have hmem : (audit_prompt q).2.flagged_categories.headD [] ∈
      (audit_prompt q).2.flagged_categories := by
    cases hcase : (audit_prompt q).2.flagged_categories with
    | nil => exact absurd hcase hne
    | cons a l => simp [List.headD]
  simp only [blockedAnswer, hf, if_true]
  rcases hcat _ hmem with hc | hc <;> rw [hc] <;> rfl

/-- Witness for C10 at a concrete toxic-language-only question. -/
theorem c10_category_key_mismatch_witness :
    ((audit_prompt "hate speech".data).1 = true
     ∧ ∀ c ∈ (audit_prompt "hate speech".data).2.flagged_categories,
         c = "toxic_language".data ∨ c = "prompt_injection".data)
    ∧ blockedAnswer "hate speech".data = some genericRefusal :=
  ⟨⟨by decide, by decide⟩,
   (c10_category_key_mismatch "hate speech".data (by decide) (by decide)).1⟩

theorem process_batch_error {E : Type}
    {llm : List (List Char) → Except E (List (List Char))}
    {st : BatchState} {now : ℚ} {e : E}
    (hne : st.current_batch ≠ [])
    (hllm : llm ((st.current_batch.map Prod.fst).map (List.take 8000)) = Except.error e) :
    process_batch llm st now = (Except.error e, ⟨[], now⟩) := by
  rw [process_batch, if_neg (by simp [List.isEmpty_eq_false.mpr hne]), hllm]

theorem process_batch_ok {E : Type}
    {llm : List (List Char) → Except E (List (List Char))}
    {st : BatchState} {now : ℚ} {rs : List (List Char)}
    (hne : st.current_batch ≠ [])
    (hllm : llm ((st.current_batch.map Prod.fst).map (List.take 8000)) = Except.ok rs) :
    process_batch llm st now =
      (Except.ok ((rs.zip (st.current_batch.map Prod.snd)).map
        (fun rm => dictUpdate (extract_structured_data rm.1) rm.2)), ⟨[], now⟩) := by
  rw [process_batch, if_neg (by simp [List.isEmpty_eq_false.mpr hne]), hllm]

/-- C1: when the completion-service call inside a flush of a non-empty
batch fails, the error propagates unchanged to the immediate caller of
process_batch, yet the batch is cleared and the flush timer is reset
to the flush time before it does; a document added after the failure
(within the timeout) is not flushed and forms a batch of exactly
itself rather than joining stale state. -/
theorem c1_flush_failure_clears_state {E : Type}
    (llm : List (List Char) → Except E (List (List Char)))
    (st : BatchState) (now t' : ℚ) (e : E) (c : List Char) (m : PyDict)
    (hne : st.current_batch ≠ [])
    (hllm : llm ((st.current_batch.map Prod.fst).map (List.take 8000)) = Except.error e)
    (ht' : t' - now < BATCH_TIMEOUT) :
    (process_batch llm st now).1 = Except.error e
    ∧ (process_batch llm st now).2.current_batch = []
    ∧ (process_batch llm st now).2.last_batch_time = now
    ∧ (add_document llm (process_batch llm st now).2 t' c m).1 = none
    ∧ (add_document llm (process_batch llm st now).2 t' c m).2.current_batch = [(c, m)] := by
  rw [process_batch_error hne hllm]
  refine ⟨rfl, rfl, rfl, ?_, ?_⟩ <;>
    (rw [add_document,
       if_neg (not_or.mpr ⟨by simp [BATCH_SIZE], not_le.mpr (by simpa using ht')⟩)]
     try rfl)

/-- Witness for C1 with a one-document batch and an always-failing
completion service. -/
theorem c1_flush_failure_clears_state_witness :
    ((⟨[("doc".data, [])], 0⟩ : BatchState).current_batch ≠ []
      ∧ ((1 : ℚ) - 1 < BATCH_TIMEOUT))
    ∧ (process_batch (fun _ => Except.error 0) (⟨[("doc".data, [])], 0⟩ : BatchState)
        (1 : ℚ)).1 = Except.error 0
    ∧ (add_document (E := Nat) (fun _ => Except.error 0)
        (process_batch (fun _ => Except.error 0) (⟨[("doc".data, [])], 0⟩ : BatchState)
          (1 : ℚ)).2 1 "next".data []).2.current_batch = [("next".data, [])] := by
  have hmain := c1_flush_failure_clears_state (E := Nat) (fun _ => Except.error 0)
    ⟨[("doc".data, [])], 0⟩ 1 1 0 "next".data []
    (by simp) rfl (by norm_num [BATCH_TIMEOUT])
  exact ⟨⟨by simp, by norm_num [BATCH_TIMEOUT]⟩, hmain.1, hmain.2.2.2.2⟩

/-- A completion service that answers every prompt, as a successful
LLMChain.apply does: one response text per submitted document. -/
def okLLM (h : List Char → List Char) : List (List Char) → Except Unit (List (List Char)) :=
  fun cs => Except.ok (cs.map h)

/-- C2: from a fresh pipeline with batch size 4 and timeout one half,
every addDocument appends its document to the current batch; a call
flushes exactly when the appended batch has reached size 4 or the
timeout has elapsed since the last flush, and returns Python None
otherwise; three rapid additions flush nothing, the fourth triggers
exactly one flush whose result holds one record per document (each the
parsed response merged with that document's metadata), after which the
batch is empty with the timer reset, the next addition starts a batch
of exactly the new document, and a flush of an empty batch returns the
empty list. -/
theorem c2_batch_flush_threshold (h : List Char → List Char)
    (d1 d2 d3 d4 d5 c : List Char) (m1 m2 m3 m4 m5 m : PyDict)
    (t0 t1 t2 t3 t4 t5 te tnow : ℚ) (st : BatchState)
    (h1 : t1 - t0 < BATCH_TIMEOUT) (h2 : t2 - t0 < BATCH_TIMEOUT)
    (h3 : t3 - t0 < BATCH_TIMEOUT) (h5 : t5 - t4 < BATCH_TIMEOUT) :
    add_document (okLLM h) ⟨[], t0⟩ t1 d1 m1 = (none, ⟨[(d1, m1)], t0⟩)
    ∧ add_document (okLLM h) ⟨[(d1, m1)], t0⟩ t2 d2 m2 =
        (none, ⟨[(d1, m1), (d2, m2)], t0⟩)
    ∧ add_document (okLLM h) ⟨[(d1, m1), (d2, m2)], t0⟩ t3 d3 m3 =
        (none, ⟨[(d1, m1), (d2, m2), (d3, m3)], t0⟩)
    ∧ add_document (okLLM h) ⟨[(d1, m1), (d2, m2), (d3, m3)], t0⟩ t4 d4 m4 =
        (some (Except.ok
          [dictUpdate (extract_structured_data (h (d1.take 8000))) m1,
           dictUpdate (extract_structured_data (h (d2.take 8000))) m2,
           dictUpdate (extract_structured_data (h (d3.take 8000))) m3,
           dictUpdate (extract_structured_data (h (d4.take 8000))) m4]),
         ⟨[], t4⟩)
    ∧ (add_document (okLLM h) ⟨[], t4⟩ t5 d5 m5).2 = ⟨[(d5, m5)], t4⟩
    ∧ (process_batch (okLLM h) ⟨[], te⟩ tnow).1 = Except.ok []
    ∧ ((add_document (okLLM h) st tnow c m).1 ≠ none ↔
        (BATCH_SIZE ≤ st.current_batch.length + 1 ∨
          BATCH_TIMEOUT ≤ tnow - st.last_batch_time)) := by
  refine ⟨?_, ?_, ?_, ?_, ?_, ?_, ?_⟩
  · rw [add_document,
      if_neg (not_or.mpr ⟨by simp [BATCH_SIZE], not_le.mpr (by simpa using h1)⟩)]
    rfl
  · rw [add_document,
      if_neg (not_or.mpr ⟨by simp [BATCH_SIZE], not_le.mpr (by simpa using h2)⟩)]
    rfl
  · rw [add_document,
      if_neg (not_or.mpr ⟨by simp [BATCH_SIZE], not_le.mpr (by simpa using h3)⟩)]
    rfl
  · rw [add_document, if_pos (Or.inl (by simp [BATCH_SIZE]))]
    show (some (process_batch (okLLM h)
        ⟨[(d1, m1), (d2, m2), (d3, m3), (d4, m4)], t0⟩ t4).1,
      (process_batch (okLLM h)
        ⟨[(d1, m1), (d2, m2), (d3, m3), (d4, m4)], t0⟩ t4).2) = _
    rw [@process_batch_ok Unit (okLLM h)
      ⟨[(d1, m1), (d2, m2), (d3, m3), (d4, m4)], t0⟩ t4 _ (by simp) rfl]
    rfl
  · rw [add_document,
      if_neg (not_or.mpr ⟨by simp [BATCH_SIZE], not_le.mpr (by simpa using h5)⟩)]
    rfl
  · rfl
  · rw [add_document]
    have hlen : (st.current_batch ++ [(c, m)]).length = st.current_batch.length + 1 := by
      simp
    by_cases hc : BATCH_SIZE ≤ st.current_batch.length + 1 ∨
        BATCH_TIMEOUT ≤ tnow - st.last_batch_time
    · rw [if_pos (by rw [hlen]; exact hc)]
      simp [hc]
    · rw [if_neg (by rw [hlen]; exact hc)]
      simp [hc]

/-- Witness for C2 at concrete documents and times below the
timeout. -/
theorem c2_batch_flush_threshold_witness :
    (((1 : ℚ)/10 - 0 < BATCH_TIMEOUT) ∧ ((2 : ℚ)/10 - 0 < BATCH_TIMEOUT)
      ∧ ((3 : ℚ)/10 - 0 < BATCH_TIMEOUT) ∧ ((5 : ℚ)/10 - 4/10 < BATCH_TIMEOUT))
    ∧ add_document (okLLM id) ⟨[], 0⟩ (1/10) "a".data [] = (none, ⟨[("a".data, [])], 0⟩)
    ∧ add_document (okLLM id)
        ⟨[("a".data, []), ("b".data, []), ("c".data, [])], 0⟩ (4/10) "d".data [] =
        (some (Except.ok
          [dictUpdate (extract_structured_data "a".data) [],
           dictUpdate (extract_structured_data "b".data) [],
           dictUpdate (extract_structured_data "c".data) [],
           dictUpdate (extract_structured_data "d".data) []]),
         ⟨[], 4/10⟩) := by
  have hmain := c2_batch_flush_threshold id "a".data "b".data "c".data "d".data "e".data
    "f".data [] [] [] [] [] [] 0 (1/10) (2/10) (3/10) (4/10) (5/10) 0 0 ⟨[], 0⟩
    (by norm_num [BATCH_TIMEOUT]) (by norm_num [BATCH_TIMEOUT])
    (by norm_num [BATCH_TIMEOUT]) (by norm_num [BATCH_TIMEOUT])
  refine ⟨⟨by norm_num [BATCH_TIMEOUT], by norm_num [BATCH_TIMEOUT],
    by norm_num [BATCH_TIMEOUT], by norm_num [BATCH_TIMEOUT]⟩, hmain.1, ?_⟩
  have h4 := hmain.2.2.2.1
  simpa using h4

/-- C9: every record a flush produces is the parsed response mapping
updated with the document's caller-supplied metadata, and for every
key present in the metadata the record holds the metadata value. -/
theorem c9_metadata_wins {E : Type}
    (llm : List (List Char) → Except E (List (List Char)))
    (st : BatchState) (now : ℚ) (rs : List (List Char))
    (i : Nat) (k v : List Char)
    (hne : st.current_batch ≠ [])
    (hllm : llm ((st.current_batch.map Prod.fst).map (List.take 8000)) = Except.ok rs)
    (hi1 : i < rs.length) (hi2 : i < st.current_batch.length)
    (hnd : (((st.current_batch.map Prod.snd).getD i []).map Prod.fst).Nodup)
    (hk : dictLookup k ((st.current_batch.map Prod.snd).getD i []) = some v) :
    (flushRecords llm st now).getD i [] =
      dictUpdate (extract_structured_data (rs.getD i []))
        ((st.current_batch.map Prod.snd).getD i [])
    ∧ dictLookup k ((flushRecords llm st now).getD i []) = some v := by
  have hrec : flushRecords llm st now =
      (rs.zip (st.current_batch.map Prod.snd)).map
        (fun rm => dictUpdate (extract_structured_data rm.1) rm.2) := by
    rw [flushRecords, process_batch_ok hne hllm]
  have hmlen : i < (st.current_batch.map Prod.snd).length := by
    simpa using hi2
  have hzlen : i < ((rs.zip (st.current_batch.map Prod.snd)).map
      (fun rm => dictUpdate (extract_structured_data rm.1) rm.2)).length := by
    simp only [List.length_map, List.length_zip]
    omega
  have hval : (flushRecords llm st now).getD i [] =
      dictUpdate (extract_structured_data (rs.getD i []))
        ((st.current_batch.map Prod.snd).getD i []) := by
    rw [hrec, List.getD_eq_getElem _ _ hzlen, List.getElem_map, List.getElem_zip,
      List.getD_eq_getElem _ _ hi1, List.getD_eq_getElem _ _ hmlen]
  exact ⟨hval, by rw [hval]; exact dictUpdate_lookup_right _ hnd hk⟩

/-- Witness for C9: a parsed title field conflicting with a metadata
filename key is resolved in favour of the metadata. -/
theorem c9_metadata_wins_witness :
    dictLookup "filename".data
      ((flushRecords (E := Unit)
        (fun _ => Except.ok ["FILENAME: parsed\nTITLE: T".data])
        ⟨[("body".data, [("filename".data, "A.pdf".data)])], 0⟩ 1).getD 0 []) =
      some "A.pdf".data :=
  (c9_metadata_wins (E := Unit)
    (fun _ => Except.ok ["FILENAME: parsed\nTITLE: T".data])
    ⟨[("body".data, [("filename".data, "A.pdf".data)])], 0⟩ 1
    ["FILENAME: parsed\nTITLE: T".data] 0 "filename".data "A.pdf".data
    (by simp) rfl (by decide) (by decide) (by decide) (by decide)).2

theorem mem_if_singleton {c : Prop} [Decidable c] {a b : Finding} :
    (a ∈ (if c then [b] else [])) ↔ c ∧ a = b := by
  by_cases h : c <;> simp [h]

theorem expiredCheck_eq (doc : PyDict) (today : PyDate) :
    expiredCheck doc today =
      (parse_date (dictGetD doc "expiration_date".data [])).any
        (fun dt => dateLtb dt today) := by
  rw [expiredCheck]
  cases parse_date (dictGetD doc "expiration_date".data []) <;> rfl

theorem mem_expiredFindings_issue {F : Finding} {doc : PyDict} {today : PyDate}
    (h : F ∈ expiredFindings doc today) : F.issue = "Outdated Policy".data := by
  rw [expiredFindings] at h
  obtain ⟨-, rfl⟩ := mem_if_singleton.mp h
  rfl

theorem mem_outdatedFindings_issue {F : Finding} {doc : PyDict}
    (h : F ∈ outdatedFindings doc) : F.issue = "Outdated Content".data := by
  rw [outdatedFindings] at h
  obtain ⟨-, rfl⟩ := mem_if_singleton.mp h
  rfl

theorem mem_redundantFindings_issue {F : Finding} {doc : PyDict}
    {hashmates : List (List Char)}
    (h : F ∈ redundantFindings doc hashmates) : F.issue = "Redundant Policy".data := by
  rw [redundantFindings] at h
  by_cases hl : 1 < hashmates.length
  · rw [if_pos hl] at h
    by_cases hd : ((hashmates.filter
        (fun f => f ≠ dictGetD doc "filename".data [])).map basename) ≠ []
    · rw [if_pos hd] at h
      obtain ⟨rfl⟩ := List.mem_singleton.mp h
      rfl
    · rw [if_neg hd] at h
      exact absurd h (List.not_mem_nil F)
  · rw [if_neg hl] at h
    exact absurd h (List.not_mem_nil F)

theorem redundant_dups_ne_nil {hashmates : List (List Char)} {fname : List Char}
    (hcount : hashmates.count fname = 1) (hl : 1 < hashmates.length) :
    (hashmates.filter (fun f => f ≠ fname)).map basename ≠ [] := by
  rw [ne_eq, List.map_eq_nil_iff]
  intro hnil
  have hall : ∀ f ∈ hashmates, f = fname := by
    intro f hf
    have := List.filter_eq_nil_iff.mp hnil f hf
    simpa using this
  have hcl : hashmates.count fname = hashmates.length :=
    List.count_eq_length.mpr fun b hb => (hall b hb).symm
  omega

/-- C5: per record of the report loop, the status is Expired exactly
when the record's expiration date parses to a date earlier than today
(otherwise Current); an Expired finding (issue type Outdated Policy,
priority High, citing the raw expiration string) is emitted exactly
under the same condition; an Outdated Content finding of priority
Medium carrying the raw outdated_elements text is emitted exactly when
that text is nonempty after trimming; and, provided the record's file
name appears exactly once in its fingerprint-index entry, a Redundant
Policy finding of priority Medium naming the other files with the same
fingerprint is emitted exactly when more than one file shares it; the
three checks are independent, so a record yields between zero and
three findings. -/
theorem c5_report_findings (doc : PyDict) (hashmates : List (List Char)) (today : PyDate)
    (hcount : hashmates.count (dictGetD doc "filename".data []) = 1) :
    (recordStatus doc today = "Expired".data ↔
      (parse_date (dictGetD doc "expiration_date".data [])).any
        (fun dt => dateLtb dt today) = true)
    ∧ ((⟨"Outdated Policy".data,
         "Policy has expired on ".data ++ dictGetD doc "expiration_date".data [],
         "Review and update policy with new expiration date".data,
         "High".data⟩ : Finding) ∈ recordFindings doc hashmates today ↔
        (parse_date (dictGetD doc "expiration_date".data [])).any
          (fun dt => dateLtb dt today) = true)
    ∧ ((⟨"Outdated Content".data,
         dictGetD doc "outdated_elements".data [],
         "Update policy content to meet current standards".data,
         "Medium".data⟩ : Finding) ∈ recordFindings doc hashmates today ↔
        trim (dictGetD doc "outdated_elements".data []) ≠ [])
    ∧ ((⟨"Redundant Policy".data,
         "This policy is identical or very similar to: ".data ++
           joinComma ((hashmates.filter
             (fun f => f ≠ dictGetD doc "filename".data [])).map basename),
         "Consider consolidating redundant policies".data,
         "Medium".data⟩ : Finding) ∈ recordFindings doc hashmates today ↔
        1 < hashmates.length) := by
  have hmem : ∀ F : Finding, F ∈ recordFindings doc hashmates today ↔
      (F ∈ expiredFindings doc today ∨ F ∈ outdatedFindings doc ∨
        F ∈ redundantFindings doc hashmates) := by
    intro F
    rw [recordFindings, List.append_assoc, List.mem_append, List.mem_append]
  refine ⟨?_, ?_, ?_, ?_⟩
  · rw [recordStatus, ← expiredCheck_eq]
    by_cases hec : expiredCheck doc today = true
    · rw [if_pos hec]
      simp [hec]
    · rw [if_neg hec]
      constructor
      · intro hco
        exact absurd hco (by decide)
      · intro hco
        exact absurd hco hec
  · rw [hmem, ← expiredCheck_eq]
    constructor
    · rintro (hm | hm | hm)
      · exact (mem_if_singleton.mp (by rwa [expiredFindings] at hm)).1
      · exact absurd (mem_outdatedFindings_issue hm)
          (by decide : ¬("Outdated Policy".data = "Outdated Content".data))
      · exact absurd (mem_redundantFindings_issue hm)
          (by decide : ¬("Outdated Policy".data = "Redundant Policy".data))
    · intro hec
      exact Or.inl (by rw [expiredFindings, if_pos hec]; exact List.mem_singleton.mpr rfl)
  · rw [hmem]
    constructor
    · rintro (hm | hm | hm)
      · exact absurd (mem_expiredFindings_issue hm)
          (by decide : ¬("Outdated Content".data = "Outdated Policy".data))
      · exact (mem_if_singleton.mp (by rwa [outdatedFindings] at hm)).1
      · exact absurd (mem_redundantFindings_issue hm)
          (by decide : ¬("Outdated Content".data = "Redundant Policy".data))
    · intro hoc
      exact Or.inr (Or.inl
        (by rw [outdatedFindings, if_pos hoc]; exact List.mem_singleton.mpr rfl))
  · rw [hmem]
    constructor
    · rintro (hm | hm | hm)
      · exact absurd (mem_expiredFindings_issue hm)
          (by decide : ¬("Redundant Policy".data = "Outdated Policy".data))
      · exact absurd (mem_outdatedFindings_issue hm)
          (by decide : ¬("Redundant Policy".data = "Outdated Content".data))
      · rw [redundantFindings] at hm
        by_cases hl : 1 < hashmates.length
        · exact hl
        · rw [if_neg hl] at hm
          exact absurd hm (List.not_mem_nil _)
    · intro hl
      refine Or.inr (Or.inr ?_)
      rw [redundantFindings, if_pos hl, if_pos (redundant_dups_ne_nil hcount hl)]
      exact List.mem_singleton.mpr rfl

/-- Witness for C5: an expired, outdated record whose fingerprint is
shared with one other document. -/
theorem c5_report_findings_witness :
    (["A.pdf".data, "B.pdf".data].count
      (dictGetD [("filename".data, "A.pdf".data),
        ("expiration_date".data, "2020-01-01".data),
        ("outdated_elements".data, "old rules".data)] "filename".data []) = 1)
    ∧ (recordStatus [("filename".data, "A.pdf".data),
        ("expiration_date".data, "2020-01-01".data),
        ("outdated_elements".data, "old rules".data)] ⟨2023, 5, 17⟩ = "Expired".data ↔
       (parse_date (dictGetD [("filename".data, "A.pdf".data),
          ("expiration_date".data, "2020-01-01".data),
          ("outdated_elements".data, "old rules".data)] "expiration_date".data [])).any
         (fun dt => dateLtb dt ⟨2023, 5, 17⟩) = true) :=
  ⟨by decide,
   (c5_report_findings [("filename".data, "A.pdf".data),
      ("expiration_date".data, "2020-01-01".data),
      ("outdated_elements".data, "old rules".data)]
      ["A.pdf".data, "B.pdf".data] ⟨2023, 5, 17⟩ (by decide)).1⟩

end AIAssistant
